import Mathlib

/-!
Verification of the stroke-counter plugin (`plover_stroke_counter/plugin.py`).

The program has two threads of interest: the host callback thread, which
enqueues unit increments into a thread-safe FIFO (`stroke_queue`), and the
GUI thread, whose event loop dispatches `CallAfter` callbacks in FIFO order
and whose `CallLater`-driven poll (`process_strokes`) transfers the stroke
queue into the event queue.  We embed this as explicit state passing over a
`GuiState` carrying both queues; each Python method becomes a Lean function
on the state.  A ghost field `applied_log` records each counter operation as
it is applied, so that exactly-once / in-order delivery can be stated.
-/

/-- A counter operation pending in the wx event queue (posted via
`wx.CallAfter`): either `_update_count strokes` or `_reset_count`. -/
inductive GuiOp where
  | update (strokes : Int)
  | reset
  deriving Repr, DecidableEq

/-- State of one `StrokeCounterGUI` object.
`stroke_count`, `stroke_queue` and `wx_ready` come from `__init__`;
`label` is the text of the `wx.StaticText`; `wx_queue` is the FIFO of
callbacks posted with `wx.CallAfter` and not yet dispatched;
`frame_shown` / `close_requested` track the window; `poll_scheduled`
records whether a `wx.CallLater` for `process_strokes` is pending.
`applied_log` is a ghost log of counter operations actually applied. -/
structure GuiState where
  stroke_count : Int
  label : String
  stroke_queue : List Int
  wx_queue : List GuiOp
  wx_ready : Bool
  frame_shown : Bool
  close_requested : Bool
  poll_scheduled : Bool
  applied_log : List GuiOp
  deriving Repr, DecidableEq

/-- Embeds `StrokeCounterGUI.__init__`: count 0, empty queues, wx not ready.
The `wx.StaticText` is created in `run` with label "Total Strokes: 0";
we give the label that initial value here for the pre-run state too,
since no label exists yet to differ from it. -/
def guiInit : GuiState :=
  { stroke_count := 0
    label := "Total Strokes: 0"
    stroke_queue := []
    wx_queue := []
    wx_ready := false
    frame_shown := false
    close_requested := false
    poll_scheduled := false
    applied_log := [] }

/-- Embeds `StrokeCounterGUI.run`: builds the frame and the static text with label
"Total Strokes: 0", shows the window, sets `wx_ready`, and schedules the
first `process_strokes` poll via `wx.CallLater(100, ...)`. -/
def guiRun (s : GuiState) : GuiState :=
  { s with
    label := "Total Strokes: 0"
    frame_shown := true
    wx_ready := true
    poll_scheduled := true }

/-- Embeds `StrokeCounterGUI.update_count` (the `notify_stroke` entry point):
`self.stroke_queue.put(1)` — appends one unit increment to the FIFO. -/
def update_count (s : GuiState) : GuiState :=
  { s with stroke_queue := s.stroke_queue ++ [1] }

/-- Embeds `StrokeCounterGUI.process_strokes`: while the stroke queue is non-empty,
`get` each item and post `wx.CallAfter(self._update_count, strokes)`; then
unconditionally reschedule itself with `wx.CallLater(100, ...)`.  The
transfer preserves FIFO order, and the rescheduling has no stop condition. -/
def process_strokes (s : GuiState) : GuiState :=
  { s with
    stroke_queue := []
    wx_queue := s.wx_queue ++ s.stroke_queue.map GuiOp.update
    poll_scheduled := true }

/-- Embeds `StrokeCounterGUI._update_count`: `self.stroke_count += strokes` and
`self.text.SetLabel(f"...")`.  Runs on the GUI thread via `CallAfter`. -/
def updateCountApply (strokes : Int) (s : GuiState) : GuiState :=
  { s with
    stroke_count := s.stroke_count + strokes
    label := "Total Strokes: " ++ toString (s.stroke_count + strokes)
    applied_log := s.applied_log ++ [GuiOp.update strokes] }

/-- Embeds `StrokeCounterGUI._reset_count`: `self.stroke_count = 0` and
`self.text.SetLabel("Total Strokes: 0")`. -/
def resetCountApply (s : GuiState) : GuiState :=
  { s with
    stroke_count := 0
    label := "Total Strokes: 0"
    applied_log := s.applied_log ++ [GuiOp.reset] }

/-- Embeds `StrokeCounterGUI.reset_count`: posts `wx.CallAfter(self._reset_count)`. -/
def reset_count (s : GuiState) : GuiState :=
  { s with wx_queue := s.wx_queue ++ [GuiOp.reset] }

/-- Embeds `StrokeCounterGUI.close`: only when `self.wx_ready.is_set()` does it post
`wx.CallAfter(self.frame.Close)`; otherwise it does nothing at all. -/
def guiClose (s : GuiState) : GuiState :=
  if s.wx_ready then { s with close_requested := true } else s

/-- Dispatch one pending `CallAfter` callback (the wx event loop pops the
head of the event queue and runs it). -/
def applyGuiOp (op : GuiOp) (s : GuiState) : GuiState :=
  match op with
  | GuiOp.update n => updateCountApply n s
  | GuiOp.reset => resetCountApply s

/-- Run a list of pending callbacks in FIFO order. -/
def applyOps (ops : List GuiOp) (s : GuiState) : GuiState :=
  ops.foldl (fun t op => applyGuiOp op t) s

/-- The wx event loop dispatching everything currently in its queue. -/
def drainWx (s : GuiState) : GuiState :=
  applyOps s.wx_queue { s with wx_queue := [] }

/-- One full drain of the hand-off: a `process_strokes` poll tick transfers
the stroke queue into the event queue, then the event loop dispatches all
pending callbacks.  After this both queues are empty, so further poll ticks
move nothing; this is the "poll loop fully drains" of the specification. -/
def fullyDrain (s : GuiState) : GuiState :=
  drainWx (process_strokes s)

/-- A call emitted to the host engine's hook interface. -/
inductive HostCall where
  | connect
  | disconnect
  deriving Repr, DecidableEq

/-- State of one `StrokeCounterPlugin`: the optional GUI object, the trace of
hook calls issued to the engine, and whether the 5-second start timer is
still pending. -/
structure PluginState where
  gui : Option GuiState
  hook_trace : List HostCall
  timer_pending : Bool
  deriving Repr, DecidableEq

/-- Embeds `StrokeCounterPlugin.__init__`: `self.gui = None`,
`hook_connect("stroked", self.on_stroke)`, and `threading.Timer(5,
self.start).start()`. -/
def pluginInit : PluginState :=
  { gui := none
    hook_trace := [HostCall.connect]
    timer_pending := true }

/-- Embeds `StrokeCounterPlugin.start`: `if self.gui is None: self.gui =
StrokeCounterGUI()`.  Constructing `StrokeCounterGUI` starts its thread,
whose `run` body executes asynchronously; the object itself already has its
queues from `__init__`. -/
def pluginStart (p : PluginState) : PluginState :=
  match p.gui with
  | none => { p with gui := some guiInit, timer_pending := false }
  | some _ => p

/-- Embeds `StrokeCounterPlugin.on_stroke`: `if self.gui: self.gui.update_count()`.
Total — its body cannot raise: when `gui` is `None` it does nothing, and
`update_count` is a single unbounded-queue put. -/
def on_stroke (p : PluginState) : PluginState :=
  match p.gui with
  | none => p
  | some g => { p with gui := some (update_count g) }

/-- Embeds `StrokeCounterPlugin.stop`: `if self.gui: self.gui.close(); self.gui =
None`, then unconditionally `hook_disconnect("stroked", self.on_stroke)`. -/
def pluginStop (p : PluginState) : PluginState :=
  let p1 :=
    match p.gui with
    | none => p
    | some _ => { p with gui := none }
  { p1 with hook_trace := p1.hook_trace ++ [HostCall.disconnect] }

/-- GUI states reachable by the program's own operations, starting from a
freshly constructed `StrokeCounterGUI`.  The thread model is reflected in
two guards: `run` executes once, from the state in which `wx_ready` is not
yet set, and the event loop dispatches `CallAfter` callbacks only after
`run` has started it (`wx_ready = true`). -/
inductive GuiReachable : GuiState → Prop where
  | init : GuiReachable guiInit
  | run {s} : GuiReachable s → s.wx_ready = false → GuiReachable (guiRun s)
  | notify {s} : GuiReachable s → GuiReachable (update_count s)
  | poll {s} : GuiReachable s → GuiReachable (process_strokes s)
  | reset {s} : GuiReachable s → GuiReachable (reset_count s)
  | close {s} : GuiReachable s → GuiReachable (guiClose s)
  | dispatch {s op rest} : GuiReachable s → s.wx_ready = true →
      s.wx_queue = op :: rest →
      GuiReachable (applyGuiOp op { s with wx_queue := rest })

/-- The counter invariant: non-negative count, label coherent with the
count, only unit increments in the stroke queue, only resets and unit
updates pending in the event queue, and a zero count while the GUI thread
has not yet started its event loop. -/
def CounterInv (s : GuiState) : Prop :=
  0 ≤ s.stroke_count ∧
  s.label = "Total Strokes: " ++ toString s.stroke_count ∧
  (∀ x ∈ s.stroke_queue, x = 1) ∧
  (∀ op ∈ s.wx_queue, op = GuiOp.reset ∨ op = GuiOp.update 1) ∧
  (s.wx_ready = false → s.stroke_count = 0)

/-- A concrete reachable state obtained by dispatching one queued unit
increment: notify once, poll, dispatch the resulting `_update_count`. -/
def postUpdateState : GuiState :=
  applyGuiOp (GuiOp.update 1)
    { process_strokes (update_count (guiRun guiInit)) with wx_queue := [] }

section Lemmas

/-- Neither kind of dispatched callback touches the queues or the flags. -/
lemma applyGuiOp_stroke_queue (op : GuiOp) (s : GuiState) :
    (applyGuiOp op s).stroke_queue = s.stroke_queue := by
  cases op <;> rfl

lemma applyGuiOp_wx_queue (op : GuiOp) (s : GuiState) :
    (applyGuiOp op s).wx_queue = s.wx_queue := by
  cases op <;> rfl

lemma applyGuiOp_applied_log (op : GuiOp) (s : GuiState) :
    (applyGuiOp op s).applied_log = s.applied_log ++ [op] := by
  cases op <;> rfl

lemma applyOps_nil (s : GuiState) : applyOps [] s = s := rfl

lemma applyOps_cons (op : GuiOp) (ops : List GuiOp) (s : GuiState) :
    applyOps (op :: ops) s = applyOps ops (applyGuiOp op s) := rfl

lemma applyOps_append (a b : List GuiOp) (s : GuiState) :
    applyOps (a ++ b) s = applyOps b (applyOps a s) := by
  simp [applyOps, List.foldl_append]

lemma applyOps_stroke_queue (ops : List GuiOp) (s : GuiState) :
    (applyOps ops s).stroke_queue = s.stroke_queue := by
  induction ops generalizing s with
  | nil => rfl
  | cons op rest ih => simp [applyOps] at ih ⊢; rw [ih, applyGuiOp_stroke_queue]

lemma applyOps_wx_queue (ops : List GuiOp) (s : GuiState) :
    (applyOps ops s).wx_queue = s.wx_queue := by
  induction ops generalizing s with
  | nil => rfl
  | cons op rest ih => simp [applyOps] at ih ⊢; rw [ih, applyGuiOp_wx_queue]

/-- Every dispatched callback is logged in dispatch order: running a batch
appends exactly that batch to the ghost log. -/
lemma applyOps_applied_log (ops : List GuiOp) (s : GuiState) :
    (applyOps ops s).applied_log = s.applied_log ++ ops := by
  induction ops generalizing s with
  | nil => simp [applyOps]
  | cons op rest ih =>
      simp [applyOps] at ih ⊢
      rw [ih, applyGuiOp_applied_log]
      simp

/-- Applying a batch of queued increments adds their sum to the counter. -/
lemma applyOps_update_count (l : List Int) (s : GuiState) :
    (applyOps (l.map GuiOp.update) s).stroke_count = s.stroke_count + l.sum := by
  induction l generalizing s with
  | nil => simp [applyOps]
  | cons a rest ih =>
      simp [applyOps] at ih ⊢
      rw [ih]
      simp [applyGuiOp, updateCountApply]
      ring

/-- Applying a batch of queued increments keeps the label coherent with the
counter. -/
lemma applyOps_update_label (l : List Int) (s : GuiState)
    (h : s.label = "Total Strokes: " ++ toString s.stroke_count) :
    (applyOps (l.map GuiOp.update) s).label =
      "Total Strokes: " ++ toString (applyOps (l.map GuiOp.update) s).stroke_count := by
  induction l generalizing s with
  | nil => simpa [applyOps] using h
  | cons a rest ih =>
      simp [applyOps] at ih ⊢
      exact ih (updateCountApply a s) rfl

/-- After a poll tick plus event-loop drain, the stroke queue is empty. -/
lemma fullyDrain_stroke_queue (s : GuiState) :
    (fullyDrain s).stroke_queue = [] := by
  simp [fullyDrain, drainWx, process_strokes, applyOps_stroke_queue]

/-- After a poll tick plus event-loop drain, the event queue is empty. -/
lemma fullyDrain_wx_queue (s : GuiState) :
    (fullyDrain s).wx_queue = [] := by
  simp [fullyDrain, drainWx, process_strokes, applyOps_wx_queue]

/-- A full drain of a state with no pending callbacks adds the sum of the
stroke queue to the counter. -/
lemma fullyDrain_count (s : GuiState) (h : s.wx_queue = []) :
    (fullyDrain s).stroke_count = s.stroke_count + s.stroke_queue.sum := by
  simp [fullyDrain, drainWx, process_strokes, h, applyOps_update_count]

/-- A full drain of a state with no pending callbacks logs exactly the
queued increments, once each, in enqueue order. -/
lemma fullyDrain_log (s : GuiState) (h : s.wx_queue = []) :
    (fullyDrain s).applied_log = s.applied_log ++ s.stroke_queue.map GuiOp.update := by
  simp [fullyDrain, drainWx, process_strokes, h, applyOps_applied_log]

/-- A full drain keeps the label coherent with the final counter value. -/
lemma fullyDrain_label (s : GuiState) (h : s.wx_queue = [])
    (hl : s.label = "Total Strokes: " ++ toString s.stroke_count) :
    (fullyDrain s).label = "Total Strokes: " ++ toString (fullyDrain s).stroke_count := by
  simp only [fullyDrain, drainWx, process_strokes, h, List.nil_append]
  exact applyOps_update_label s.stroke_queue _ hl

/-- Iterating `update_count` appends that many unit increments to the FIFO
and changes nothing else. -/
lemma update_count_iterate (n : Nat) (s : GuiState) :
    update_count^[n] s = { s with stroke_queue := s.stroke_queue ++ List.replicate n 1 } := by
  induction n with
  | zero => simp
  | succ k ih =>
      rw [Function.iterate_succ_apply', ih]
      simp [update_count, List.replicate_succ']

/-- An interleaving of concurrent `update_count` callers is some ordering of
their atomic queue puts: folding over the interleaving is iteration. -/
lemma foldl_update_count (callers : List Nat) (s : GuiState) :
    callers.foldl (fun g _ => update_count g) s = update_count^[callers.length] s := by
  induction callers generalizing s with
  | nil => rfl
  | cons c rest ih =>
      simp only [List.foldl_cons, List.length_cons]
      rw [ih, Function.iterate_succ_apply]

/-- Iterating `on_stroke` on a plugin with no GUI does nothing at all. -/
lemma on_stroke_iterate_none (n : Nat) (p : PluginState) (h : p.gui = none) :
    on_stroke^[n] p = p := by
  induction n with
  | zero => rfl
  | succ k ih => rw [Function.iterate_succ_apply, on_stroke, h, ih]

/-- Iterating `on_stroke` on a plugin with a live GUI enqueues once per call. -/
lemma on_stroke_iterate_some (n : Nat) (p : PluginState) (g : GuiState)
    (h : p.gui = some g) :
    on_stroke^[n] p = { p with gui := some (update_count^[n] g) } := by
  induction n generalizing p g with
  | zero => simp only [Function.iterate_zero_apply]; rw [← h]
  | succ k ih =>
      rw [Function.iterate_succ_apply, on_stroke, h]
      rw [ih _ (update_count g) rfl]
      rw [← Function.iterate_succ_apply]

/-- A plugin whose GUI is absent ignores a stroke event entirely. -/
lemma on_stroke_none (p : PluginState) (h : p.gui = none) : on_stroke p = p := by
  simp [on_stroke, h]

/-- Enqueue-then-drain from a fresh GUI yields exactly the number of
enqueued unit increments. -/
lemma drain_update_iter_count (n : Nat) :
    (fullyDrain (update_count^[n] guiInit)).stroke_count = (n : Int) := by
  have hq : (update_count^[n] guiInit).wx_queue = [] := by
    rw [update_count_iterate]
    rfl
  rw [fullyDrain_count _ hq, update_count_iterate]
  simp [guiInit, List.sum_replicate]

/-- Every reachable GUI state satisfies the counter invariant. -/
lemma guiReachable_counterInv (s : GuiState) (h : GuiReachable s) : CounterInv s := by
  induction h with
  | init =>
      exact ⟨le_refl 0, rfl, by simp [guiInit], by simp [guiInit], fun _ => rfl⟩
  | @run t hprev hready ih =>
      obtain ⟨h0, hlbl, hsq, hwq, hz⟩ := ih
      have hc0 : t.stroke_count = 0 := hz hready
      refine ⟨?_, ?_, hsq, hwq, ?_⟩
      · simp [guiRun, hc0]
      · simp only [guiRun]
        rw [hc0]
        rfl
      · intro hw
        simp [guiRun] at hw
  | @notify t hprev ih =>
      obtain ⟨h0, hlbl, hsq, hwq, hz⟩ := ih
      refine ⟨h0, hlbl, ?_, hwq, hz⟩
      intro x hx
      simp [update_count] at hx
      rcases hx with hx | hx
      · exact hsq x hx
      · exact hx
  | @poll t hprev ih =>
      obtain ⟨h0, hlbl, hsq, hwq, hz⟩ := ih
      refine ⟨h0, hlbl, ?_, ?_, hz⟩
      · intro x hx
        simp [process_strokes] at hx
      · intro op hop
        simp [process_strokes] at hop
        rcases hop with hop | ⟨x, hx, rfl⟩
        · exact hwq op hop
        · right
          rw [hsq x hx]
  | @reset t hprev ih =>
      obtain ⟨h0, hlbl, hsq, hwq, hz⟩ := ih
      refine ⟨h0, hlbl, hsq, ?_, hz⟩
      intro op hop
      simp [reset_count] at hop
      rcases hop with hop | rfl
      · exact hwq op hop
      · left
        rfl
  | @close t hprev ih =>
      obtain ⟨h0, hlbl, hsq, hwq, hz⟩ := ih
      cases hr : t.wx_ready with
      | false =>
          have he : guiClose t = t := by simp [guiClose, hr]
          rw [he]
          exact ⟨h0, hlbl, hsq, hwq, hz⟩
      | true =>
          have he : guiClose t = { t with close_requested := true } := by
            simp [guiClose, hr]
          rw [he]
          exact ⟨h0, hlbl, hsq, hwq, hz⟩
  | @dispatch t op rest hprev hready hq ih =>
      obtain ⟨h0, hlbl, hsq, hwq, hz⟩ := ih
      have hop : op = GuiOp.reset ∨ op = GuiOp.update 1 := by
        refine hwq op ?_
        rw [hq]
        exact List.mem_cons_self op rest
      have hrest : ∀ o ∈ rest, o = GuiOp.reset ∨ o = GuiOp.update 1 := by
        intro o ho
        refine hwq o ?_
        rw [hq]
        exact List.mem_cons_of_mem _ ho
      rcases hop with rfl | rfl
      · exact ⟨le_refl 0, rfl, hsq, hrest, fun _ => rfl⟩
      · have hstep : (applyGuiOp (GuiOp.update 1) { t with wx_queue := rest }).stroke_count
            = t.stroke_count + 1 := rfl
        refine ⟨by rw [hstep]; omega, rfl, hsq, hrest, ?_⟩
        intro hw
        simp [applyGuiOp, updateCountApply, hready] at hw

end Lemmas

/-- Claim C1: for every natural number N, starting from a count of 0, a
sequence of N `notify_stroke()` calls (`update_count`, each enqueueing one
unit increment) followed by running the poll loop until the queue is fully
drained leaves the displayed stroke count equal to N. -/
theorem c1_n_notifications_drain_to_n (N : Nat) :
    (fullyDrain (update_count^[N] guiInit)).stroke_count = (N : Int) ∧
    (fullyDrain (update_count^[N] guiInit)).label
      = "Total Strokes: " ++ toString (N : Int) := by
  have hq : (update_count^[N] guiInit).wx_queue = [] := by
    rw [update_count_iterate]
    rfl
  have hcount := drain_update_iter_count N
  refine ⟨hcount, ?_⟩
  have hl : (update_count^[N] guiInit).label
      = "Total Strokes: " ++ toString (update_count^[N] guiInit).stroke_count := by
    rw [update_count_iterate]
    rfl
  rw [fullyDrain_label _ hq hl, hcount]

/-- Claim C2 counterexample: one stroke delivered while the plugin's GUI is
still `None` (before the delayed start), then the GUI starts and fully
drains — the displayed count is 0, not the 1 the claim requires. -/
theorem c2_pre_start_stroke_is_dropped :
    ((pluginStart (on_stroke pluginInit)).gui.map fun g => (fullyDrain g).stroke_count)
        = some 0 ∧
    ((pluginStart (on_stroke pluginInit)).gui.map fun g => (fullyDrain g).stroke_count)
        ≠ some 1 := by
  constructor
  · decide
  · decide

/-- Claim C2 as amended: strokes delivered while the GUI is `None` are
dropped (`on_stroke` is a no-op then); once the GUI object exists, every
subsequent stroke is enqueued, and a full drain shows exactly the number of
post-start strokes. -/
theorem c2_amended_only_post_start_strokes_counted (pre post : Nat) :
    ((on_stroke^[post] (pluginStart (on_stroke^[pre] pluginInit))).gui.map
        fun g => (fullyDrain g).stroke_count) = some (post : Int) := by
  rw [on_stroke_iterate_none pre pluginInit rfl]
  rw [on_stroke_iterate_some post (pluginStart pluginInit) guiInit rfl]
  simp only [Option.map_some']
  rw [drain_update_iter_count post]

/-- Claim C3 counterexample: with one increment still sitting in the stroke
queue when `reset()` is requested, the reset callback is posted to the wx
event queue before the next poll transfers the increment, so after a full
drain the displayed count is 1, not 0. -/
theorem c3_reset_overtaken_by_pending_increment :
    (fullyDrain (reset_count { guiInit with stroke_queue := [1] })).stroke_count = 1 ∧
    (fullyDrain (reset_count { guiInit with stroke_queue := [1] })).stroke_count ≠ 0 := by
  constructor
  · decide
  · decide

/-- Claim C3 as amended: `reset()` followed by a full drain leaves the
displayed count equal to the sum of the increments that were still in the
stroke queue (not yet transferred to the UI event queue) when the reset was
requested; in particular it is 0 exactly when no increment was pending
there.  Increments already transferred are coherently overwritten by the
reset. -/
theorem c3_amended_drain_after_reset (s : GuiState) :
    (fullyDrain (reset_count s)).stroke_count = s.stroke_queue.sum ∧
    (fullyDrain (reset_count s)).label
      = "Total Strokes: " ++ toString s.stroke_queue.sum := by
  have hsplit : fullyDrain (reset_count s) =
      applyOps (s.stroke_queue.map GuiOp.update)
        (applyOps [GuiOp.reset]
          (applyOps s.wx_queue
            { process_strokes (reset_count s) with wx_queue := [] })) := by
    simp [fullyDrain, drainWx, process_strokes, reset_count, applyOps_append,
      applyOps_cons, applyOps_nil]
  have hc : (applyOps [GuiOp.reset]
      (applyOps s.wx_queue
        { process_strokes (reset_count s) with wx_queue := [] })).stroke_count = 0 := by
    rw [applyOps_cons, applyOps_nil]
    rfl
  have hlbl : (applyOps [GuiOp.reset]
      (applyOps s.wx_queue
        { process_strokes (reset_count s) with wx_queue := [] })).label
      = "Total Strokes: " ++ toString (applyOps [GuiOp.reset]
          (applyOps s.wx_queue
            { process_strokes (reset_count s) with wx_queue := [] })).stroke_count := by
    rw [applyOps_cons, applyOps_nil]
    rfl
  constructor
  · rw [hsplit, applyOps_update_count, hc, zero_add]
  · rw [hsplit, applyOps_update_label _ _ hlbl, applyOps_update_count, hc, zero_add]

/-- Claim C4: for every state with no callbacks already pending, a full
drain applies each enqueued increment exactly once and in enqueue (FIFO)
order — the ghost log of applied operations is exactly the queue contents in
order — empties the stroke queue, and adds exactly the queued total to the
count (no loss, no duplication). -/
theorem c4_fifo_exactly_once (s : GuiState)
    (hwx : s.wx_queue = []) (hlog : s.applied_log = []) :
    (fullyDrain s).applied_log = s.stroke_queue.map GuiOp.update ∧
    (fullyDrain s).stroke_queue = [] ∧
    (fullyDrain s).stroke_count = s.stroke_count + s.stroke_queue.sum := by
  refine ⟨?_, fullyDrain_stroke_queue s, fullyDrain_count s hwx⟩
  rw [fullyDrain_log s hwx, hlog, List.nil_append]

/-- Witness for C4 at a queue holding two unit increments. -/
theorem c4_fifo_exactly_once_witness :
    ({ guiInit with stroke_queue := [1, 1] } : GuiState).wx_queue = [] ∧
    ({ guiInit with stroke_queue := [1, 1] } : GuiState).applied_log = [] ∧
    ((fullyDrain { guiInit with stroke_queue := [1, 1] }).applied_log
        = ({ guiInit with stroke_queue := [1, 1] } : GuiState).stroke_queue.map GuiOp.update ∧
      (fullyDrain { guiInit with stroke_queue := [1, 1] }).stroke_queue = [] ∧
      (fullyDrain { guiInit with stroke_queue := [1, 1] }).stroke_count
        = ({ guiInit with stroke_queue := [1, 1] } : GuiState).stroke_count
            + ({ guiInit with stroke_queue := [1, 1] } : GuiState).stroke_queue.sum) :=
  ⟨rfl, rfl, c4_fifo_exactly_once { guiInit with stroke_queue := [1, 1] } rfl rfl⟩

/-- Claim C5: after `stop()` the plugin's GUI reference is `None`, so every
subsequent `on_stroke` call leaves the plugin state completely unchanged —
it enqueues nothing, recreates no GUI, and (being a total function whose
only action is a guarded queue put) raises nothing. -/
theorem c5_stroke_after_stop_is_noop (p : PluginState) :
    (pluginStop p).gui = none ∧ on_stroke (pluginStop p) = pluginStop p := by
  have h : (pluginStop p).gui = none := by
    cases hg : p.gui <;> simp [pluginStop, hg]
  exact ⟨h, on_stroke_none _ h⟩

/-- Claim C6 counterexample: two consecutive `stop()` calls are not
equivalent to one — the second call issues a second `hook_disconnect` to the
host, so the plugin states differ (in the emitted hook-call trace). -/
theorem c6_double_stop_not_idempotent :
    pluginStop (pluginStop pluginInit) ≠ pluginStop pluginInit := by
  decide

/-- Claim C6 as amended: double `start()` is a genuine no-op; double
`stop()` leaves the GUI state unchanged (still torn down) but issues a
second `hook_disconnect` call to the host hook. -/
theorem c6_amended_start_idempotent_stop_disconnects_again (p : PluginState) :
    pluginStart (pluginStart p) = pluginStart p ∧
    (pluginStop (pluginStop p)).gui = (pluginStop p).gui ∧
    (pluginStop (pluginStop p)).hook_trace
      = (pluginStop p).hook_trace ++ [HostCall.disconnect] := by
  refine ⟨?_, ?_, ?_⟩ <;> cases hg : p.gui <;> simp [pluginStart, pluginStop, hg]

/-- Claim C7, recorded against the code: `process_strokes` reschedules
itself unconditionally — even in a state where the close of the window has
already been requested, a poll tick leaves another poll scheduled.  The
code has no stop condition on the self-rescheduling loop. -/
theorem c7_poll_reschedules_even_after_close (s : GuiState)
    (h : s.close_requested = true) :
    (process_strokes s).poll_scheduled = true ∧
    (process_strokes s).close_requested = true :=
  ⟨rfl, h⟩

/-- Witness for C7 at the state reached by running, then closing, the GUI. -/
theorem c7_poll_reschedules_even_after_close_witness :
    (guiClose (guiRun guiInit)).close_requested = true ∧
    ((process_strokes (guiClose (guiRun guiInit))).poll_scheduled = true ∧
      (process_strokes (guiClose (guiRun guiInit))).close_requested = true) :=
  ⟨rfl, c7_poll_reschedules_even_after_close _ rfl⟩

/-- Claim C8: an interleaving of concurrent `notify_stroke()` callers is an
arbitrary ordering of their atomic queue puts; for every such interleaving,
each call enqueues exactly one unit increment (the queue is exactly that
many ones) and the drained total equals the number of calls. -/
theorem c8_concurrent_interleavings_count_exactly (callers : List Nat) :
    (callers.foldl (fun g _ => update_count g) guiInit).stroke_queue
        = List.replicate callers.length 1 ∧
    (fullyDrain (callers.foldl (fun g _ => update_count g) guiInit)).stroke_count
        = (callers.length : Int) := by
  constructor
  · rw [foldl_update_count, update_count_iterate]
    simp [guiInit]
  · rw [foldl_update_count]
    exact drain_update_iter_count callers.length

/-- Claim C9: in every reachable GUI state — in particular after every
dispatched `_update_count` and `_reset_count` — the stroke count is
non-negative and the visible label reads "Total Strokes: " followed by the
current count. -/
theorem c9_count_nonneg_label_coherent (s : GuiState) (h : GuiReachable s) :
    0 ≤ s.stroke_count ∧ s.label = "Total Strokes: " ++ toString s.stroke_count :=
  ⟨(guiReachable_counterInv s h).1, (guiReachable_counterInv s h).2.1⟩

/-- Witness for C9 at the reachable state obtained by notifying once,
polling, and dispatching the resulting `_update_count`. -/
theorem c9_count_nonneg_label_coherent_witness :
    GuiReachable postUpdateState ∧
    (0 ≤ postUpdateState.stroke_count ∧
      postUpdateState.label = "Total Strokes: " ++ toString postUpdateState.stroke_count) :=
  ⟨GuiReachable.dispatch
      (GuiReachable.poll (GuiReachable.notify (GuiReachable.run GuiReachable.init rfl)))
      rfl rfl,
    c9_count_nonneg_label_coherent postUpdateState
      (GuiReachable.dispatch
        (GuiReachable.poll (GuiReachable.notify (GuiReachable.run GuiReachable.init rfl)))
        rfl rfl)⟩

/-- Claim C10: calling `close()` before the GUI thread has set `wx_ready`
changes nothing at all (no teardown is requested), and a `run` that
completes afterwards still shows the window despite the earlier close
request. -/
theorem c10_close_before_ready_is_silent_noop (s : GuiState)
    (h : s.wx_ready = false) :
    guiClose s = s ∧ (guiRun (guiClose s)).frame_shown = true := by
  have he : guiClose s = s := by simp [guiClose, h]
  refine ⟨he, ?_⟩
  rw [he]
  rfl

/-- Witness for C10 at the freshly constructed GUI state. -/
theorem c10_close_before_ready_is_silent_noop_witness :
    guiInit.wx_ready = false ∧
    (guiClose guiInit = guiInit ∧ (guiRun (guiClose guiInit)).frame_shown = true) :=
  ⟨rfl, c10_close_before_ready_is_silent_noop guiInit rfl⟩
